import Mathlib

/-!
Verification of the dependency-update core: manifest patch engine
(dependency_operations.py), repository cache (repository_cache.py) and the
persistent MCP server session (src/integrations/mcp_server_manager.py).

Python strings are modelled as lists of characters; `splitChar`, `trimS`,
`lowerS` and `takeBefore2` mirror `str.split`, `str.strip`, `str.lower`
and the combination of `in`/`split(sep)[0]` used by the source.
-/

namespace DepUpdater

/-- Python strings, modelled as lists of characters. -/
abbrev Str := List Char

/-- Conversion from a Lean string literal. -/
def str (s : String) : Str := s.data

/-- Python's default `str.strip` whitespace set. -/
def isWs (c : Char) : Bool :=
  c = ' ' || c = '\t' || c = '\n' || c = '\r' || c = '\x0b' || c = '\x0c'

/-- Leading-whitespace strip, as in `str.lstrip()`. -/
def ltrim (s : Str) : Str := s.dropWhile isWs

/-- Trailing-whitespace strip, as in `str.rstrip()`. -/
def rtrim (s : Str) : Str := (s.reverse.dropWhile isWs).reverse

/-- Both-ends strip, as in `str.strip()`. -/
def trimS (s : Str) : Str := rtrim (ltrim s)

/-- ASCII lower-casing of one character, as Python's `str.lower` acts on
the ASCII package names used by the source. -/
def lowerChar (c : Char) : Char :=
  if 65 ≤ c.toNat ∧ c.toNat ≤ 90 then Char.ofNat (c.toNat + 32) else c

/-- Python `str.lower` on ASCII text. -/
def lowerS (s : Str) : Str := s.map lowerChar

/-- Python `s.split(sep)` for a one-character separator `sep`. -/
def splitChar (c : Char) : Str → List Str
  | [] => [[]]
  | x :: xs =>
    if x = c then [] :: splitChar c xs
    else
      match splitChar c xs with
      | [] => [[x]]
      | h :: t => (x :: h) :: t

/-- Python `sep.join(parts)` for a one-character separator. -/
def joinChar (c : Char) : List Str → Str
  | [] => []
  | [l] => l
  | l :: ls => l ++ c :: joinChar c ls

/-- The part of `s` before the first occurrence of the two-character
pattern `[a, b]`, or `none` when the pattern does not occur: models the
pair `sep in s` / `s.split(sep)[0]` for the two-character separators
`==`, `>=`, `<=` used by the source. -/
def takeBefore2 (a b : Char) : Str → Option Str
  | [] => none
  | x :: xs =>
    match xs with
    | [] => none
    | y :: _ =>
      if x = a ∧ y = b then some []
      else (takeBefore2 a b xs).map (fun p => x :: p)

/-! ## Update categorization (`categorize_updates`) -/

/-- One entry of the `outdated_packages` JSON list consumed by
`categorize_updates`: `current` and `latest` are optional, with the
defaults `"0.0.0"` applied by `pkg.get`. -/
structure PkgUpdate where
  name : Str
  current : Option Str
  latest : Option Str
deriving DecidableEq, Repr

/-- Python `current.lstrip('^~>=')`. -/
def stripRangeOps (s : Str) : Str :=
  s.dropWhile (fun c => c = '^' || c = '~' || c = '>' || c = '=')

inductive UpdateCategory
  | major
  | minor
  | patch
deriving DecidableEq, Repr

/-- The per-package classification performed inside the loop of
`categorize_updates` (dependency_operations.py lines 347-366). -/
def categorizeOne (pkg : PkgUpdate) : UpdateCategory :=
  let current := stripRangeOps (pkg.current.getD (str "0.0.0"))
  let latest := pkg.latest.getD (str "0.0.0")
  match splitChar '.' current, splitChar '.' latest with
  | c0 :: ctl, l0 :: ltl =>
    if c0 ≠ l0 then .major
    else
      match ctl, ltl with
      | c1 :: _, l1 :: _ => if c1 ≠ l1 then .minor else .patch
      | _, _ => .patch
  | _, _ => .minor

/-- The three buckets returned by `categorize_updates`. -/
structure CategorizeResult where
  major : List PkgUpdate
  minor : List PkgUpdate
  patch : List PkgUpdate
deriving DecidableEq, Repr

/-- `categorize_updates` (dependency_operations.py lines 330-378): each
package is appended, in order, to the bucket chosen by `categorizeOne`. -/
def categorize_updates (pkgs : List PkgUpdate) : CategorizeResult where
  major := pkgs.filter (fun p => decide (categorizeOne p = .major))
  minor := pkgs.filter (fun p => decide (categorizeOne p = .minor))
  patch := pkgs.filter (fun p => decide (categorizeOne p = .patch))

/-! ## Line-oriented manifest patching (`apply_all_updates`, requirements.txt
branch) and rollback (`rollback_major_update`, requirements.txt branch) -/

/-- One entry of the `outdated_packages` list consumed by
`apply_all_updates`: `latest` is accessed as `update["latest"]` (required),
`current` via `update.get("current", ...)` (optional). -/
structure ReqUpdate where
  name : Str
  current : Option Str
  latest : Str
deriving DecidableEq, Repr

/-- One record appended to `applied_updates`. -/
structure AppliedUpdate where
  name : Str
  old : Str
  new : Str
deriving DecidableEq, Repr

/-- Lookup in `updates_dict = {u["name"].lower(): u for u in updates}`:
the last update with the given lower-cased name wins, as in a Python dict
comprehension. -/
def reqLookup (us : List ReqUpdate) (key : Str) : Option ReqUpdate :=
  us.reverse.find? (fun u => decide (lowerS u.name = key))

/-- The package-name parse of one stripped requirements.txt line:
`stripped.split('==')[0].strip()` when `'=='` occurs, then the `'>='` and
`'<='` cases, else the whole stripped line. -/
def parseReqName (stripped : Str) : Str :=
  match takeBefore2 '=' '=' stripped with
  | some p => trimS p
  | none =>
    match takeBefore2 '>' '=' stripped with
    | some p => trimS p
    | none =>
      match takeBefore2 '<' '=' stripped with
      | some p => trimS p
      | none => stripped

/-- Processing of a single line by the requirements.txt branch of
`apply_all_updates` (dependency_operations.py lines 69-99): comments and
blank lines pass through; a line whose parsed package name is non-empty
and found in the dict is rewritten `f"{pkg_name}=={new_version}"` and
recorded; other lines pass through. -/
def applyReqLine (us : List ReqUpdate) (line : Str) : Str × Option AppliedUpdate :=
  let stripped := trimS line
  if stripped = [] ∨ stripped.head? = some '#' then (line, none)
  else
    let n := parseReqName stripped
    if n = [] then (line, none)
    else
      match reqLookup us (lowerS n) with
      | some u =>
        (n ++ '=' :: '=' :: u.latest, some ⟨n, u.current.getD (str "unknown"), u.latest⟩)
      | none => (line, none)

/-- The result object of `apply_all_updates`:
`{updated_content, applied_updates, total_updates}`. -/
structure ReqApplyResult where
  updated_content : Str
  applied_updates : List AppliedUpdate
  total_updates : Nat
deriving DecidableEq, Repr

/-- The requirements.txt branch of `apply_all_updates`
(dependency_operations.py lines 64-101 and 140-145): split on newlines,
process every line, join with newlines; `total_updates` is the length of
`applied_updates`. -/
def apply_all_updates_requirements (content : Str) (us : List ReqUpdate) : ReqApplyResult :=
  let results := (splitChar '\n' content).map (applyReqLine us)
  { updated_content := joinChar '\n' (results.map Prod.fst)
  , applied_updates := results.filterMap Prod.snd
  , total_updates := (results.filterMap Prod.snd).length }

/-- Processing of a single line by the requirements.txt branch of
`rollback_major_update` (dependency_operations.py lines 186-206): only
lines containing `==` are considered; a case-insensitive name match is
rewritten `f"{pkg_name}=={target_version}"`. -/
def rollbackReqLine (pkg target : Str) (line : Str) : Str :=
  let stripped := trimS line
  if stripped = [] ∨ stripped.head? = some '#' then line
  else
    match takeBefore2 '=' '=' stripped with
    | some p =>
      let n := trimS p
      if lowerS n = lowerS pkg then n ++ '=' :: '=' :: target else line
    | none => line

/-- The requirements.txt branch of `rollback_major_update`. -/
def rollback_major_update_requirements (content pkg target : Str) : Str :=
  joinChar '\n' ((splitChar '\n' content).map (rollbackReqLine pkg target))

/-- The three kinds of line for which the apply-then-rollback round trip
restores the original text: blank or comment lines, lines whose parsed
package name differs (case-insensitively) from the updated package, and
entries written exactly `N==target` for the updated package with a
whitespace-free, `=`-free name. -/
def c5LineOk (u : ReqUpdate) (target line : Str) : Prop :=
  (trimS line = [] ∨ (trimS line).head? = some '#') ∨
  lowerS (parseReqName (trimS line)) ≠ lowerS u.name ∨
  ((takeBefore2 '=' '=' line).isSome = true ∧
    line = ((takeBefore2 '=' '=' line).getD []) ++ '=' :: '=' :: target ∧
    ((takeBefore2 '=' '=' line).getD []) ≠ [] ∧
    ((takeBefore2 '=' '=' line).getD []).all (fun c => !(isWs c) && !(decide (c = '='))) = true ∧
    ((takeBefore2 '=' '=' line).getD []).head? ≠ some '#' ∧
    lowerS ((takeBefore2 '=' '=' line).getD []) = lowerS u.name)

instance (u : ReqUpdate) (target line : Str) : Decidable (c5LineOk u target line) := by
  unfold c5LineOk
  infer_instance

/-! ## Repository cache (`repository_cache.py`)

Times are modelled in minutes; `timedelta(hours=h)` becomes `60 * h`.
Payloads cached under `analysis` / `outdated_packages` are abstracted to
`Nat` tokens: the cache never inspects them. A metadata file on disk is
either unparsable JSON, or a JSON record whose `cached_at` field is
missing, an unparsable string, or a parsable timestamp. -/

/-- The `cached_at` entry of a metadata record as `datetime.fromisoformat`
sees it: `missing` models `metadata.get('cached_at') = None` (the key is
absent), `malformed` a string `fromisoformat` rejects with `ValueError`,
`iso t` a parsable timestamp. -/
inductive CachedAtField
  | missing
  | malformed
  | iso (t : Nat)
deriving DecidableEq, Repr

/-- A parsed metadata record, with the per-field timestamps written by
`cache_analysis` / `cache_outdated`. -/
structure CacheMetadata where
  cached_at : CachedAtField
  analysis : Option Nat
  analysis_cached_at : Option Nat
  outdated_packages : Option Nat
  outdated_cached_at : Option Nat
deriving DecidableEq, Repr

/-- Contents of a metadata file: unparsable JSON or a record. -/
inductive MetadataFile
  | notJson
  | json (m : CacheMetadata)
deriving DecidableEq, Repr

/-- Python exceptions that can escape the cache code: `TypeError` from
`datetime.fromisoformat(None)`, `ValueError` (including
`json.JSONDecodeError`) from parsing. -/
inductive PyError
  | typeError
  | valueError
deriving DecidableEq, Repr

/-- Minutes per hour, for `timedelta(hours=...)`. -/
def minutesPerHour : Nat := 60

/-- `RepositoryCache._is_cache_valid` (repository_cache.py lines 96-119):
a missing file is invalid; unparsable JSON raises `JSONDecodeError`
(caught, invalid); `metadata.get('cached_at')` on a record without the
key yields `None` and `datetime.fromisoformat(None)` raises `TypeError`,
which the `except (JSONDecodeError, ValueError, KeyError)` clause does
NOT catch, so it escapes; a malformed timestamp string raises
`ValueError` (caught, invalid); otherwise valid iff
`now < cached_at + timedelta(hours=expiry_hours)`. -/
def is_cache_valid (expiryHours now : Nat) (file : Option MetadataFile) : Except PyError Bool :=
  match file with
  | none => .ok false
  | some .notJson => .ok false
  | some (.json m) =>
    match m.cached_at with
    | .missing => .error .typeError
    | .malformed => .ok false
    | .iso t => .ok (decide (now < t + minutesPerHour * expiryHours))

/-- `RepositoryCache.get_cached_repository` (lines 121-138): the cached
path is returned iff the metadata is valid and the snapshot directory
exists; an exception escaping `_is_cache_valid` propagates (there is no
try around the call). The returned `Bool` stands for `some path` vs
`None`. -/
def get_cached_repository (expiryHours now : Nat) (file : Option MetadataFile)
    (repoExists : Bool) : Except PyError Bool :=
  match is_cache_valid expiryHours now file with
  | .error e => .error e
  | .ok true => .ok repoExists
  | .ok false => .ok false

/-- `RepositoryCache.cache_analysis` (lines 193-221): load the existing
record (corrupt JSON raises, uncaught here) or create a fresh one with
`cached_at = now`; then merge `analysis` and `analysis_cached_at = now`
into the record and write it back. -/
def cache_analysis (file : Option MetadataFile) (data now : Nat) : Except PyError CacheMetadata :=
  match file with
  | some .notJson => .error .valueError
  | some (.json m) => .ok { m with analysis := some data, analysis_cached_at := some now }
  | none =>
    .ok { cached_at := .iso now, analysis := some data, analysis_cached_at := some now
        , outdated_packages := none, outdated_cached_at := none }

/-- `RepositoryCache.get_cached_analysis` (lines 168-191): `None` when
`_is_cache_valid` is false (an escaping exception propagates, the call is
outside the try); otherwise re-load the file and return its `analysis`
field, `None` on a parse error. -/
def get_cached_analysis (expiryHours now : Nat) (file : Option MetadataFile) :
    Except PyError (Option Nat) :=
  match is_cache_valid expiryHours now file with
  | .error e => .error e
  | .ok false => .ok none
  | .ok true =>
    match file with
    | some (.json m) => .ok m.analysis
    | _ => .ok none

/-- `RepositoryCache.cache_outdated` (lines 248-276), the mirror image of
`cache_analysis` for the `outdated_packages` field. -/
def cache_outdated (file : Option MetadataFile) (data now : Nat) : Except PyError CacheMetadata :=
  match file with
  | some .notJson => .error .valueError
  | some (.json m) => .ok { m with outdated_packages := some data, outdated_cached_at := some now }
  | none =>
    .ok { cached_at := .iso now, analysis := none, analysis_cached_at := none
        , outdated_packages := some data, outdated_cached_at := some now }

/-- `RepositoryCache.get_cached_outdated` (lines 223-246), the mirror
image of `get_cached_analysis`. -/
def get_cached_outdated (expiryHours now : Nat) (file : Option MetadataFile) :
    Except PyError (Option Nat) :=
  match is_cache_valid expiryHours now file with
  | .error e => .error e
  | .ok false => .ok none
  | .ok true =>
    match file with
    | some (.json m) => .ok m.outdated_packages
    | _ => .ok none

/-- `RepositoryCache.cleanup_expired` (lines 297-320): iterate over the
metadata files (each given with whether a co-named snapshot directory
exists), delete every invalid entry and count it; an exception escaping
`_is_cache_valid` aborts the sweep (the loop has no try). -/
def cleanup_expired (expiryHours now : Nat) : List (MetadataFile × Bool) → Except PyError Nat
  | [] => .ok 0
  | (f, _) :: rest =>
    match is_cache_valid expiryHours now (some f) with
    | .error e => .error e
    | .ok true => cleanup_expired expiryHours now rest
    | .ok false =>
      match cleanup_expired expiryHours now rest with
      | .error e => .error e
      | .ok n => .ok (n + 1)

/-! ## Persistent MCP server session (`mcp_server_manager.py`)

The session's interaction with the outside world (the stdio handshake of
`start`, the remote call inside `call_tool`) is driven by explicit
outcome values; ghost counters `spawnCount` (stdio client creations) and
`startCalls` (entries into `start`) record what the claims about process
spawning and re-running `start` refer to. -/

inductive MCPServerStatus
  | stopped
  | starting
  | running
  | error
  | reconnecting
deriving DecidableEq, Repr

/-- The mutable fields of `PersistentMCPServer` relevant to lifecycle
claims, plus the two ghost counters. -/
structure MCPState where
  githubToken : Option Str
  status : MCPServerStatus
  sessionOpen : Bool
  tools : List Str
  containerId : Option Str
  errorMessage : Option Str
  reconnectAttempts : Nat
  spawnCount : Nat
  startCalls : Nat
deriving DecidableEq, Repr

/-- `self._max_reconnect_attempts`. -/
def maxReconnectAttempts : Nat := 3

/-- Outcome of one attempt of the `try` block of `start`: either the
handshake succeeds (yielding the tool list and a best-effort container
id) or some step raises with a message. -/
inductive StartOutcome
  | success (tools : List Str) (containerId : Option Str)
  | failure (msg : Str)
deriving DecidableEq, Repr

/-- `PersistentMCPServer._cleanup`: closes the session and stdio context. -/
def mcpCleanup (st : MCPState) : MCPState := { st with sessionOpen := false }

/-- `PersistentMCPServer.start` (mcp_server_manager.py lines 122-185):
without a configured token, go directly to `error` with a message and
return false, spawning nothing; otherwise mark `starting`, spawn the
stdio client and on handshake success record tools and container id,
set `running`, reset the reconnect counter and return true; on failure
set `error`, clean up and return false. -/
def start (st : MCPState) (o : StartOutcome) : MCPState × Bool :=
  let st := { st with startCalls := st.startCalls + 1 }
  match st.githubToken with
  | none =>
    ({ st with status := .error
             , errorMessage := some (str "GITHUB_PERSONAL_ACCESS_TOKEN not set") }, false)
  | some _ =>
    let st := { st with status := .starting, errorMessage := none }
    match o with
    | .success tools cid =>
      ({ st with spawnCount := st.spawnCount + 1, sessionOpen := true, tools := tools
               , containerId := cid, status := .running, reconnectAttempts := 0 }, true)
    | .failure msg =>
      ({ st with spawnCount := st.spawnCount + 1, status := .error
               , errorMessage := some msg, sessionOpen := false }, false)

/-- `PersistentMCPServer.reconnect` (lines 236-260): when the attempt
counter has reached the maximum, set terminal `error` and return false
without calling `start`; otherwise mark `reconnecting`, bump the counter,
clean up, back off and re-run `start`. -/
def reconnect (st : MCPState) (o : StartOutcome) : MCPState × Bool :=
  if st.reconnectAttempts ≥ maxReconnectAttempts then
    ({ st with status := .error
             , errorMessage := some (str "Max reconnect attempts (3) exceeded") }, false)
  else
    let st := { st with status := .reconnecting, reconnectAttempts := st.reconnectAttempts + 1 }
    start (mcpCleanup st) o

/-- `PersistentMCPServer.is_running`: status `running` with an open
session. -/
def is_running (st : MCPState) : Bool :=
  decide (st.status = .running) && st.sessionOpen

/-- `PersistentMCPServer.ensure_connected` (lines 262-278). -/
def ensure_connected (st : MCPState) (o : StartOutcome) : MCPState × Bool :=
  if is_running st then (st, true)
  else if st.status = .stopped then start st o
  else if st.status = .error ∨ st.status = .reconnecting then reconnect st o
  else (st, false)

/-- Outcome of one `self._session.call_tool(...)` await: a payload, an
empty-content response, or a raised channel fault. -/
inductive CallOutcome
  | ok (data : Str)
  | okEmpty
  | fault (msg : Str)
deriving DecidableEq, Repr

/-- The dictionary returned by `call_tool`. -/
inductive CallResult
  | success (data : Str)
  | error (msg : Str)
deriving DecidableEq, Repr

/-- The environment of one attempt round of `call_tool`: a start outcome
consumed if `ensure_connected` needs one, the outcome of the remote call,
and a start outcome consumed if a fault forces a reconnect. -/
structure CallRound where
  ensureStart : StartOutcome
  callResult : CallOutcome
  reconnectStart : StartOutcome
deriving DecidableEq, Repr

/-- `PersistentMCPServer.call_tool` (lines 280-327): require
`ensure_connected`; on a fault mark `error` and `reconnect()`; when the
reconnect succeeds, retry the same call RECURSIVELY (the Python
`return await self.call_tool(tool_name, arguments)`), otherwise surface
the failure. The third component counts the retries performed; `none`
means the round list ended before the recursion did. -/
def call_tool : MCPState → List CallRound → Option (MCPState × CallResult × Nat)
  | _, [] => none
  | st, r :: rest =>
    let es := ensure_connected st r.ensureStart
    if es.2 = false then
      some (es.1, .error (str "MCP server not available: " ++ (es.1.errorMessage.getD (str "None"))), 0)
    else
      match r.callResult with
      | .ok data => some (es.1, .success data, 0)
      | .okEmpty => some (es.1, .error (str "No response from MCP server"), 0)
      | .fault msg =>
        let st2 := { es.1 with status := .error, errorMessage := some msg }
        let rc := reconnect st2 r.reconnectStart
        if rc.2 then
          match call_tool rc.1 rest with
          | none => none
          | some (st3, res, n) => some (st3, res, n + 1)
        else
          some (rc.1, .error (str "MCP call failed: " ++ msg), 0)

/-! ## Lemmas about the string model -/

theorem dropWhileHeadNeg {p : Char → Bool} : ∀ {l x xs}, List.dropWhile p l = x :: xs → p x = false := by
  intro l
  induction l with
  | nil => intro x xs h; simp [List.dropWhile] at h
  | cons y ys ih =>
    intro x xs h
    rw [List.dropWhile_cons] at h
    by_cases hp : p y
    · rw [if_pos hp] at h; exact ih h
    · rw [if_neg hp] at h
      rcases List.cons.injEq .. ▸ h with ⟨h1, _⟩
      subst h1
      simpa using hp

theorem dropWhileIdem (p : Char → Bool) (l : Str) :
    List.dropWhile p (List.dropWhile p l) = List.dropWhile p l := by
  cases h : List.dropWhile p l with
  | nil => simp
  | cons x xs => rw [List.dropWhile_cons, dropWhileHeadNeg h]; simp

theorem ltrim_cons_neg {x : Char} (s : Str) (h : isWs x = false) : ltrim (x :: s) = x :: s := by
  simp [ltrim, List.dropWhile_cons, h]

theorem ltrim_head {s : Str} {x : Char} {l : Str} (h : ltrim s = x :: l) : isWs x = false :=
  dropWhileHeadNeg h

theorem ltrim_idem (s : Str) : ltrim (ltrim s) = ltrim s := dropWhileIdem isWs s

theorem rtrim_idem (s : Str) : rtrim (rtrim s) = rtrim s := by
  simp [rtrim, List.reverse_reverse, dropWhileIdem]

theorem rtrim_append (xs ys : Str) :
    rtrim (xs ++ ys) = if rtrim ys = [] then rtrim xs else xs ++ rtrim ys := by
  unfold rtrim
  rw [List.reverse_append, List.dropWhile_append]
  by_cases h : (List.dropWhile isWs ys.reverse).isEmpty
  · rw [if_pos h]
    rw [List.isEmpty_iff] at h
    simp [h]
  · rw [if_neg h]
    rw [List.isEmpty_iff] at h
    have h2 : ¬ (List.dropWhile isWs ys.reverse).reverse = [] := by
      simpa using h
    simp [h2]

theorem rtrim_eq_nil_iff {s : Str} : rtrim s = [] ↔ ∀ c ∈ s, isWs c := by
  unfold rtrim
  rw [List.reverse_eq_nil_iff, List.dropWhile_eq_nil_iff]
  constructor
  · intro h c hc; exact h c (List.mem_reverse.mpr hc)
  · intro h c hc; exact h c (List.mem_reverse.mp hc)

theorem rtrim_leading (s : Str) : rtrim s <+: s := by
  have h1 : List.dropWhile isWs s.reverse <:+ s.reverse := List.dropWhile_suffix isWs
  have h2 := List.reverse_prefix.mpr h1
  simpa [rtrim] using h2

theorem ltrim_suffix (s : Str) : ltrim s <:+ s := List.dropWhile_suffix isWs

theorem mem_of_mem_trimS {c : Char} {s : Str} (h : c ∈ trimS s) : c ∈ s := by
  have h1 : c ∈ ltrim s := (rtrim_leading (ltrim s)).subset h
  exact (ltrim_suffix s).subset h1

theorem trimS_head {s : Str} {x : Char} {l : Str} (h : trimS s = x :: l) : isWs x = false := by
  rcases (rtrim_leading (ltrim s)) with ⟨t, ht⟩
  rw [trimS] at h
  rw [h] at ht
  exact ltrim_head ht.symm

theorem trimS_idem (s : Str) : trimS (trimS s) = trimS s := by
  have hl : ltrim (trimS s) = trimS s := by
    cases h : trimS s with
    | nil => simp [ltrim]
    | cons x l => exact ltrim_cons_neg l (trimS_head h)
  rw [trimS, hl, trimS, rtrim_idem]

theorem trimS_of_no_ws {s : Str} (h : ∀ c ∈ s, isWs c = false) : trimS s = s := by
  have hl : ltrim s = s := by
    cases s with
    | nil => rfl
    | cons x l => exact ltrim_cons_neg l (h x (by simp))
  have hr : rtrim s = s := by
    unfold rtrim
    have : List.dropWhile isWs s.reverse = s.reverse := by
      cases hs : s.reverse with
      | nil => simp
      | cons x l =>
        rw [List.dropWhile_cons]
        have hx : x ∈ s := List.mem_reverse.mp (by rw [hs]; simp)
        rw [h x hx]
        simp
    rw [this, List.reverse_reverse]
  rw [trimS, hl, hr]

theorem splitChar_ne_nil (c : Char) (s : Str) : splitChar c s ≠ [] := by
  induction s with
  | nil => simp [splitChar]
  | cons x xs ih =>
    rw [splitChar]
    by_cases h : x = c
    · simp [h]
    · simp [h]
      cases hs : splitChar c xs with
      | nil => simp
      | cons a t => simp

theorem splitChar_not_mem (c : Char) (s : Str) : ∀ l ∈ splitChar c s, c ∉ l := by
  induction s with
  | nil =>
    intro l hl
    simp [splitChar] at hl
    subst hl
    simp
  | cons x xs ih =>
    intro l hl
    rw [splitChar] at hl
    by_cases h : x = c
    · simp [h] at hl
      rcases hl with h1 | h1
      · subst h1; simp
      · exact ih l h1
    · rw [if_neg h] at hl
      cases hs : splitChar c xs with
      | nil => exact absurd hs (splitChar_ne_nil c xs)
      | cons a t =>
        rw [hs] at hl
        simp at hl
        rcases hl with h1 | h1
        · subst h1
          intro hc
          rcases List.mem_cons.mp hc with h2 | h2
          · exact h h2.symm
          · exact ih a (by rw [hs]; simp) h2
        · exact ih l (by rw [hs]; simp [h1])

theorem splitChar_of_not_mem {c : Char} {s : Str} (h : c ∉ s) : splitChar c s = [s] := by
  induction s with
  | nil => rfl
  | cons x xs ih =>
    have hx : ¬ x = c := fun e => h (by simp [e])
    have hxs : c ∉ xs := fun m => h (List.mem_cons_of_mem _ m)
    rw [splitChar, if_neg hx, ih hxs]

theorem splitChar_append_cons {c : Char} {l : Str} (h : c ∉ l) (r : Str) :
    splitChar c (l ++ c :: r) = l :: splitChar c r := by
  induction l with
  | nil => simp [splitChar]
  | cons x xs ih =>
    have hx : ¬ x = c := fun e => h (by simp [e])
    have hxs : c ∉ xs := fun m => h (List.mem_cons_of_mem _ m)
    rw [List.cons_append, splitChar, if_neg hx, ih hxs]

theorem joinChar_splitChar (c : Char) (s : Str) : joinChar c (splitChar c s) = s := by
  induction s with
  | nil => rfl
  | cons x xs ih =>
    rw [splitChar]
    by_cases h : x = c
    · rw [if_pos h]
      cases hs : splitChar c xs with
      | nil => exact absurd hs (splitChar_ne_nil c xs)
      | cons a t =>
        rw [hs] at ih
        subst h
        simp [joinChar, ih]
    · rw [if_neg h]
      cases hs : splitChar c xs with
      | nil => exact absurd hs (splitChar_ne_nil c xs)
      | cons a t =>
        rw [hs] at ih
        cases t with
        | nil =>
          simp [joinChar] at ih
          simp [joinChar, ih]
        | cons b ts =>
          simp [joinChar] at ih ⊢
          exact ih

theorem splitChar_joinChar {c : Char} : ∀ {ls : List Str}, (∀ l ∈ ls, c ∉ l) → ls ≠ [] →
    splitChar c (joinChar c ls) = ls := by
  intro ls
  induction ls with
  | nil => intro _ h; exact absurd rfl h
  | cons l ls ih =>
    intro h _
    cases ls with
    | nil =>
      simp [joinChar]
      exact splitChar_of_not_mem (h l (by simp))
    | cons m ms =>
      have h1 : c ∉ l := h l (by simp)
      have h2 : joinChar c (l :: m :: ms) = l ++ c :: joinChar c (m :: ms) := by
        simp [joinChar]
      rw [h2, splitChar_append_cons h1, ih (fun x hx => h x (by simp [hx])) (by simp)]

theorem takeBefore2_cons2 (a b x y : Char) (rest : Str) :
    takeBefore2 a b (x :: y :: rest) =
      if x = a ∧ y = b then some []
      else (takeBefore2 a b (y :: rest)).map (fun p => x :: p) := rfl

theorem takeBefore2_append {a b : Char} : ∀ {p : Str}, a ∉ p → ∀ t,
    takeBefore2 a b (p ++ a :: b :: t) = some p := by
  intro p
  induction p with
  | nil => intro _ t; simp [takeBefore2]
  | cons x xs ih =>
    intro h t
    have hx : ¬ x = a := fun e => h (by simp [e])
    have hxs : a ∉ xs := fun m => h (List.mem_cons_of_mem _ m)
    have ihx := ih hxs t
    cases xs with
    | nil =>
      have hg : ¬ (x = a ∧ a = b) := fun hc => hx hc.1
      simp only [List.nil_append] at ihx
      simp only [List.cons_append, List.nil_append, takeBefore2_cons2, if_neg hg, ihx]
      rfl
    | cons z zs =>
      have hg : ¬ (x = a ∧ z = b) := fun hc => hx hc.1
      simp only [List.cons_append] at ihx
      simp only [List.cons_append, takeBefore2_cons2, if_neg hg, ihx]
      rfl

theorem takeBefore2_some {a b : Char} : ∀ {s p : Str}, takeBefore2 a b s = some p →
    ∃ t, s = p ++ a :: b :: t := by
  intro s
  induction s with
  | nil => intro p h; simp [takeBefore2] at h
  | cons x xs ih =>
    intro p h
    cases xs with
    | nil => simp [takeBefore2] at h
    | cons y rest =>
      rw [takeBefore2_cons2] at h
      by_cases hg : x = a ∧ y = b
      · rw [if_pos hg] at h
        have hp : p = [] := by simpa using h.symm
        subst hp
        exact ⟨rest, by simp [hg.1, hg.2]⟩
      · rw [if_neg hg] at h
        rcases Option.map_eq_some'.mp h with ⟨q, hq, hqp⟩
        rcases ih hq with ⟨t, ht⟩
        exact ⟨t, by rw [← hqp, ht]; rfl⟩

theorem mem_of_takeBefore2 {a b : Char} {s p : Str} (h : takeBefore2 a b s = some p)
    {c : Char} (hc : c ∈ p) : c ∈ s := by
  rcases takeBefore2_some h with ⟨t, ht⟩
  rw [ht]
  exact List.mem_append_left _ hc

theorem reqLookup_some {us : List ReqUpdate} {key : Str} {u : ReqUpdate}
    (h : reqLookup us key = some u) : u ∈ us ∧ lowerS u.name = key := by
  unfold reqLookup at h
  refine ⟨List.mem_reverse.mp (List.mem_of_find?_eq_some h), ?_⟩
  have h2 := List.find?_some h
  simpa using h2

/-! ## Lemmas about line processing -/

theorem parseReqName_trimmed (s : Str) :
    trimS (parseReqName (trimS s)) = parseReqName (trimS s) := by
  unfold parseReqName
  cases h1 : takeBefore2 '=' '=' (trimS s) with
  | some p => simp [trimS_idem]
  | none =>
    cases h2 : takeBefore2 '>' '=' (trimS s) with
    | some p => simp [trimS_idem]
    | none =>
      cases h3 : takeBefore2 '<' '=' (trimS s) with
      | some p => simp [trimS_idem]
      | none => simp [trimS_idem]

theorem mem_parseReqName {s : Str} {c : Char} (h : c ∈ parseReqName (trimS s)) : c ∈ s := by
  unfold parseReqName at h
  cases h1 : takeBefore2 '=' '=' (trimS s) with
  | some p =>
    rw [h1] at h
    exact mem_of_mem_trimS (mem_of_takeBefore2 h1 (mem_of_mem_trimS h))
  | none =>
    rw [h1] at h
    cases h2 : takeBefore2 '>' '=' (trimS s) with
    | some p =>
      rw [h2] at h
      exact mem_of_mem_trimS (mem_of_takeBefore2 h2 (mem_of_mem_trimS h))
    | none =>
      rw [h2] at h
      cases h3 : takeBefore2 '<' '=' (trimS s) with
      | some p =>
        rw [h3] at h
        exact mem_of_mem_trimS (mem_of_takeBefore2 h3 (mem_of_mem_trimS h))
      | none =>
        rw [h3] at h
        exact mem_of_mem_trimS h

theorem applyReqLine_spec (us : List ReqUpdate) (line : Str) :
    applyReqLine us line = (line, none) ∨
    ∃ n u, n = parseReqName (trimS line) ∧ n ≠ [] ∧ reqLookup us (lowerS n) = some u ∧
      applyReqLine us line =
        (n ++ '=' :: '=' :: u.latest, some ⟨n, u.current.getD (str "unknown"), u.latest⟩) := by
  unfold applyReqLine
  by_cases h1 : trimS line = [] ∨ (trimS line).head? = some '#'
  · left; simp only [if_pos h1]
  · rw [if_neg h1]
    by_cases h2 : parseReqName (trimS line) = []
    · left; simp only [if_pos h2]
    · rw [if_neg h2]
      cases h3 : reqLookup us (lowerS (parseReqName (trimS line))) with
      | none => left; rfl
      | some u => right; exact ⟨parseReqName (trimS line), u, rfl, h2, h3, rfl⟩

theorem rtrim_eq_eq (s : Str) : rtrim ('=' :: '=' :: s) = '=' :: '=' :: rtrim s := by
  have h2 := rtrim_append ['=', '='] s
  have h3 : rtrim ['=', '='] = ['=', '='] := by decide
  by_cases hL : rtrim s = []
  · rw [if_pos hL, h3] at h2
    rw [hL]
    exact h2
  · rw [if_neg hL] at h2
    exact h2

theorem trimS_append_eq {n : Str} {x : Char} {l : Str} (hcons : n = x :: l)
    (hx : isWs x = false) (s : Str) :
    trimS (n ++ '=' :: '=' :: s) = n ++ '=' :: '=' :: rtrim s := by
  have hysne : rtrim ('=' :: '=' :: s) ≠ [] := by rw [rtrim_eq_eq]; simp
  have hrt : rtrim (n ++ '=' :: '=' :: s) = n ++ '=' :: '=' :: rtrim s := by
    rw [rtrim_append, if_neg hysne, rtrim_eq_eq]
  have hlt : ltrim (n ++ '=' :: '=' :: s) = n ++ '=' :: '=' :: s := by
    rw [hcons, List.cons_append]
    exact ltrim_cons_neg _ hx
  rw [trimS, hlt, hrt]

theorem applyReqLine_fixed {us : List ReqUpdate} {n : Str} {u : ReqUpdate} (s : Str)
    (hn : n ≠ []) (htr : trimS n = n) (heq : '=' ∉ n) (hhash : n.head? ≠ some '#')
    (hu : reqLookup us (lowerS n) = some u) :
    applyReqLine us (n ++ '=' :: '=' :: s) =
      (n ++ '=' :: '=' :: u.latest, some ⟨n, u.current.getD (str "unknown"), u.latest⟩) := by
  obtain ⟨x, l, hcons⟩ : ∃ x l, n = x :: l := by
    cases n with
    | nil => exact absurd rfl hn
    | cons x l => exact ⟨x, l, rfl⟩
  have hx : isWs x = false := trimS_head (hcons ▸ htr)
  have hts := trimS_append_eq hcons hx s
  have hguard : ¬(trimS (n ++ '=' :: '=' :: s) = [] ∨
      (trimS (n ++ '=' :: '=' :: s)).head? = some '#') := by
    rw [hts, hcons]
    intro hor
    rcases hor with h1 | h1
    · simp at h1
    · rw [List.cons_append] at h1
      simp at h1
      exact hhash (by rw [hcons]; simpa using h1)
  have hparse : parseReqName (trimS (n ++ '=' :: '=' :: s)) = n := by
    rw [hts]
    unfold parseReqName
    simp only [takeBefore2_append heq]
    exact htr
  unfold applyReqLine
  rw [if_neg hguard]
  simp only [hparse]
  rw [if_neg hn, hu]

theorem not_mem_of_lower {c : Char} {n key : Str} (hkey : lowerS n = key)
    (hfix : lowerChar c = c) (hmem : c ∉ key) : c ∉ n := by
  intro hc
  exact hmem (hkey ▸ (hfix ▸ List.mem_map_of_mem lowerChar hc))

theorem applyReqLine_idem {us : List ReqUpdate} (line : Str)
    (H : ∀ u ∈ us, '=' ∉ lowerS u.name ∧ '#' ∉ lowerS u.name) :
    applyReqLine us ((applyReqLine us line).1) = applyReqLine us line := by
  rcases applyReqLine_spec us line with h | ⟨n, u, hn, hne, hu, h⟩
  · rw [h]
    exact h
  · rcases reqLookup_some hu with ⟨hmem, hkey⟩
    have heqn : '=' ∉ n := not_mem_of_lower hkey.symm (by decide) (H u hmem).1
    have hhashn : '#' ∉ n := not_mem_of_lower hkey.symm (by decide) (H u hmem).2
    have htr : trimS n = n := hn ▸ parseReqName_trimmed line
    have hhash : n.head? ≠ some '#' := by
      cases n with
      | nil => simp
      | cons x _ =>
        intro hc
        simp at hc
        exact hhashn (by rw [hc]; simp)
    rw [h]
    exact applyReqLine_fixed u.latest hne htr heqn hhash hu

theorem applyReqLine_no_nl {us : List ReqUpdate} {line : Str}
    (Hnl : ∀ u ∈ us, '\n' ∉ u.latest) (hline : '\n' ∉ line) :
    '\n' ∉ (applyReqLine us line).1 := by
  rcases applyReqLine_spec us line with h | ⟨n, u, hn, _, hu, h⟩
  · rw [h]
    exact hline
  · rw [h]
    intro hc
    simp only [List.mem_append, List.mem_cons] at hc
    rcases hc with h1 | h1 | h1 | h1
    · exact hline (mem_parseReqName (hn ▸ h1))
    · simp at h1
    · simp at h1
    · exact Hnl u (reqLookup_some hu).1 h1

theorem apply_req_updated_content (content : Str) (us : List ReqUpdate) :
    (apply_all_updates_requirements content us).updated_content =
      joinChar '\n' ((splitChar '\n' content).map (fun l => (applyReqLine us l).1)) := by
  simp only [apply_all_updates_requirements, List.map_map]
  rfl

theorem apply_req_requick (content : Str) (us : List ReqUpdate)
    (Hnl : ∀ u ∈ us, '\n' ∉ u.latest) :
    splitChar '\n' ((apply_all_updates_requirements content us).updated_content) =
      (splitChar '\n' content).map (fun l => (applyReqLine us l).1) := by
  rw [apply_req_updated_content]
  refine splitChar_joinChar ?_ ?_
  · intro l hl
    rcases List.mem_map.mp hl with ⟨l0, hl0, hmap⟩
    rw [← hmap]
    exact applyReqLine_no_nl Hnl (splitChar_not_mem '\n' content l0 hl0)
  · simpa using splitChar_ne_nil '\n' content

theorem apply_req_idem (content : Str) (us : List ReqUpdate)
    (H : ∀ u ∈ us, '=' ∉ lowerS u.name ∧ '#' ∉ lowerS u.name ∧ '\n' ∉ u.latest) :
    apply_all_updates_requirements
        ((apply_all_updates_requirements content us).updated_content) us =
      apply_all_updates_requirements content us := by
  have key : (splitChar '\n' ((apply_all_updates_requirements content us).updated_content)).map
      (applyReqLine us) = (splitChar '\n' content).map (applyReqLine us) := by
    rw [apply_req_requick content us (fun u hu => (H u hu).2.2), List.map_map]
    refine List.map_congr_left ?_
    intro l _
    exact applyReqLine_idem l (fun u hu => ⟨(H u hu).1, (H u hu).2.1⟩)
  simp only [apply_all_updates_requirements] at key ⊢
  rw [key]

theorem reqLookup_single {u : ReqUpdate} {key : Str} (h : lowerS u.name = key) :
    reqLookup [u] key = some u := by
  unfold reqLookup
  simp [List.find?, h]

theorem reqLookup_single_ne {u : ReqUpdate} {key : Str} (h : lowerS u.name ≠ key) :
    reqLookup [u] key = none := by
  unfold reqLookup
  simp [List.find?, h]

theorem rollbackReqLine_fixed {pkg N target s : Str}
    (hN : N ≠ []) (hnws : ∀ c ∈ N, isWs c = false) (heq : '=' ∉ N)
    (hhash : N.head? ≠ some '#') (hlow : lowerS N = lowerS pkg) :
    rollbackReqLine pkg target (N ++ '=' :: '=' :: s) = N ++ '=' :: '=' :: target := by
  obtain ⟨x, l, hcons⟩ : ∃ x l, N = x :: l := by
    cases N with
    | nil => exact absurd rfl hN
    | cons x l => exact ⟨x, l, rfl⟩
  have hx : isWs x = false := hnws x (by rw [hcons]; simp)
  have htr : trimS N = N := trimS_of_no_ws hnws
  have hts := trimS_append_eq hcons hx s
  have hguard : ¬(trimS (N ++ '=' :: '=' :: s) = [] ∨
      (trimS (N ++ '=' :: '=' :: s)).head? = some '#') := by
    rw [hts, hcons]
    intro hor
    rcases hor with h1 | h1
    · simp at h1
    · rw [List.cons_append] at h1
      simp at h1
      exact hhash (by rw [hcons]; simpa using h1)
  unfold rollbackReqLine
  rw [if_neg hguard]
  simp only [hts, takeBefore2_append heq]
  rw [htr, if_pos hlow]

theorem applyReqLine_entry {u : ReqUpdate} {N : Str} (s : Str)
    (hN : N ≠ []) (hnws : ∀ c ∈ N, isWs c = false) (heq : '=' ∉ N)
    (hhash : N.head? ≠ some '#') (hlow : lowerS N = lowerS u.name) :
    applyReqLine [u] (N ++ '=' :: '=' :: s) =
      (N ++ '=' :: '=' :: u.latest, some ⟨N, u.current.getD (str "unknown"), u.latest⟩) :=
  applyReqLine_fixed s hN (trimS_of_no_ws hnws) heq hhash (reqLookup_single hlow.symm)

theorem roundtripLine (u : ReqUpdate) (target line : Str)
    (hcond : c5LineOk u target line) :
    rollbackReqLine u.name target ((applyReqLine [u] line).1) = line := by
  by_cases hguard : trimS line = [] ∨ (trimS line).head? = some '#'
  · have ha : applyReqLine [u] line = (line, none) := by
      unfold applyReqLine
      rw [if_pos hguard]
    rw [ha]
    unfold rollbackReqLine
    rw [if_pos hguard]
  · rcases hcond with h | h | h
    · exact absurd h hguard
    · have ha : applyReqLine [u] line = (line, none) := by
        unfold applyReqLine
        rw [if_neg hguard]
        by_cases h2 : parseReqName (trimS line) = []
        · rw [if_pos h2]
        · rw [if_neg h2, reqLookup_single_ne (fun he => h he.symm)]
      rw [ha]
      unfold rollbackReqLine
      rw [if_neg hguard]
      cases hp : takeBefore2 '=' '=' (trimS line) with
      | none => rfl
      | some p =>
        have hpn : parseReqName (trimS line) = trimS p := by
          unfold parseReqName
          rw [hp]
        rw [hpn] at h
        simp only [hp]
        rw [if_neg h]
    · rcases h with ⟨hsome, hline, hN, hall, hhead, hlow⟩
      have hprops := List.all_eq_true.mp hall
      have hnws : ∀ c ∈ ((takeBefore2 '=' '=' line).getD []), isWs c = false := by
        intro c hc
        have := hprops c hc
        simp at this
        exact this.1
      have heq : '=' ∉ ((takeBefore2 '=' '=' line).getD []) := by
        intro hc
        have := hprops '=' hc
        simp at this
      rw [hline, applyReqLine_entry target hN hnws heq hhead hlow]
      exact rollbackReqLine_fixed hN hnws heq hhead (by rw [hlow])

theorem roundtrip_req (u : ReqUpdate) (target content : Str)
    (hnl : '\n' ∉ u.latest)
    (H : ∀ line ∈ splitChar '\n' content, c5LineOk u target line) :
    rollback_major_update_requirements
      ((apply_all_updates_requirements content [u]).updated_content) u.name target = content := by
  unfold rollback_major_update_requirements
  rw [apply_req_requick content [u] (by simpa using hnl), List.map_map]
  have hmap : (splitChar '\n' content).map
      ((rollbackReqLine u.name target) ∘ (fun l => (applyReqLine [u] l).1)) =
      splitChar '\n' content := by
    have h2 : (splitChar '\n' content).map
        ((rollbackReqLine u.name target) ∘ (fun l => (applyReqLine [u] l).1)) =
        (splitChar '\n' content).map id :=
      List.map_congr_left (fun l hl => roundtripLine u target l (H l hl))
    rw [h2, List.map_id]
  rw [hmap, joinChar_splitChar]

/-! ## Lemmas about the session model -/

theorem call_tool_retries_lt : ∀ (rounds : List CallRound) (st : MCPState)
    (out : MCPState × CallResult × Nat),
    call_tool st rounds = some out → out.2.2 < rounds.length := by
  intro rounds
  induction rounds with
  | nil =>
    intro st out h
    simp [call_tool] at h
  | cons r rest ih =>
    intro st out h
    simp only [call_tool] at h
    by_cases hc : (ensure_connected st r.ensureStart).2 = false
    · rw [if_pos hc] at h
      rcases Option.some.injEq .. ▸ h with rfl
      simp
    · rw [if_neg hc] at h
      cases hcr : r.callResult with
      | ok data =>
        simp only [hcr] at h
        rcases Option.some.injEq .. ▸ h with rfl
        simp
      | okEmpty =>
        simp only [hcr] at h
        rcases Option.some.injEq .. ▸ h with rfl
        simp
      | fault msg =>
        simp only [hcr] at h
        by_cases hrc : (reconnect { (ensure_connected st r.ensureStart).1 with
            status := .error, errorMessage := some msg } r.reconnectStart).2 = true
        · rw [if_pos hrc] at h
          cases hct : call_tool (reconnect { (ensure_connected st r.ensureStart).1 with
              status := .error, errorMessage := some msg } r.reconnectStart).1 rest with
          | none => rw [hct] at h; simp at h
          | some trip =>
            obtain ⟨st3, res, n⟩ := trip
            rw [hct] at h
            rcases Option.some.injEq .. ▸ h with rfl
            have hb := ih _ _ hct
            simp at hb ⊢
            omega
        · rw [if_neg hrc] at h
          rcases Option.some.injEq .. ▸ h with rfl
          simp

theorem call_tool_fault_surfaces (st : MCPState) (r : CallRound) (rest : List CallRound)
    (msg : Str) (hf : r.callResult = .fault msg)
    (hconn : (ensure_connected st r.ensureStart).2 = true)
    (hrc : (reconnect { (ensure_connected st r.ensureStart).1 with
        status := .error, errorMessage := some msg } r.reconnectStart).2 = false) :
    call_tool st (r :: rest) =
      some ((reconnect { (ensure_connected st r.ensureStart).1 with
          status := .error, errorMessage := some msg } r.reconnectStart).1,
        .error (str "MCP call failed: " ++ msg), 0) := by
  simp only [call_tool]
  rw [if_neg (by simp [hconn])]
  simp only [hf]
  rw [if_neg (by simp [hrc])]

/-! ## Claims -/

/-- C2, counterexample: the update `{name: "react", current: "1",
latest: "1.5"}` has equal first components and lacks a second component
on the current side, yet `categorize_updates` places it in the `patch`
bucket, not in `minor` as the claim states. -/
theorem c2_counterexample :
    categorize_updates [⟨str "react", some (str "1"), some (str "1.5")⟩] =
      ⟨[], [], [⟨str "react", some (str "1"), some (str "1.5")⟩]⟩ ∧
    categorizeOne ⟨str "react", some (str "1"), some (str "1.5")⟩ = .patch := by
  decide

/-- C2, amended: for every update pair whose first numeric components
(after stripping a leading range operator from the current version) are
equal and where either version lacks a second component,
`categorize_updates` assigns that update to the PATCH category, never to
the minor category. -/
theorem c2_short_version_is_patch (pkgs : List PkgUpdate) (pkg : PkgUpdate)
    (hmem : pkg ∈ pkgs)
    (hhead : (splitChar '.' (stripRangeOps (pkg.current.getD (str "0.0.0")))).head? =
      (splitChar '.' (pkg.latest.getD (str "0.0.0"))).head?)
    (hshort : (splitChar '.' (stripRangeOps (pkg.current.getD (str "0.0.0")))).length < 2 ∨
      (splitChar '.' (pkg.latest.getD (str "0.0.0"))).length < 2) :
    pkg ∈ (categorize_updates pkgs).patch ∧ pkg ∉ (categorize_updates pkgs).minor := by
  have hcat : categorizeOne pkg = .patch := by
    simp only [categorizeOne]
    cases hc : splitChar '.' (stripRangeOps (pkg.current.getD (str "0.0.0"))) with
    | nil => exact absurd hc (splitChar_ne_nil _ _)
    | cons c0 ctl =>
      cases hl : splitChar '.' (pkg.latest.getD (str "0.0.0")) with
      | nil => exact absurd hl (splitChar_ne_nil _ _)
      | cons l0 ltl =>
        rw [hc, hl] at hhead hshort
        have he : c0 = l0 := by simpa using hhead
        have hnil : ctl = [] ∨ ltl = [] := by
          rcases hshort with h1 | h1
          · left
            have h2 : ctl.length = 0 := by simp at h1; omega
            exact List.length_eq_zero.mp h2
          · right
            have h2 : ltl.length = 0 := by simp at h1; omega
            exact List.length_eq_zero.mp h2
        subst he
        rcases hnil with h2 | h2
        · subst h2
          simp
        · subst h2
          cases ctl with
          | nil => simp
          | cons a t => simp
  refine ⟨List.mem_filter.mpr ⟨hmem, by simp [hcat]⟩, ?_⟩
  intro hmm
  have h2 := (List.mem_filter.mp hmm).2
  simp [hcat] at h2

/-- C2, witness: the amended theorem applied to the concrete update
`current "1"`, `latest "1.5"`. -/
theorem c2_short_version_is_patch_witness :
    ⟨str "react", some (str "1"), some (str "1.5")⟩ ∈
      (categorize_updates [⟨str "react", some (str "1"), some (str "1.5")⟩]).patch ∧
    ⟨str "react", some (str "1"), some (str "1.5")⟩ ∉
      (categorize_updates [⟨str "react", some (str "1"), some (str "1.5")⟩]).minor :=
  c2_short_version_is_patch _ _ (by decide) (by decide) (by decide)

/-- C3, counterexample: on the line-oriented manifest
`"requests>=2.25.0\nflask"` with updates for `requests` (to 2.31.0) and
`flask` (to 3.0.0), `apply_all_updates` rewrites the `>=` entry as
`requests==2.31.0` (the `>=` operator is NOT re-applied) and the
operator-free entry `flask` as `flask==3.0.0` (it does not remain
operator-free). -/
theorem c3_counterexample :
    (apply_all_updates_requirements (str "requests>=2.25.0\nflask")
        [⟨str "requests", some (str "2.25.0"), str "2.31.0"⟩,
         ⟨str "flask", some (str "2.0.0"), str "3.0.0"⟩]).updated_content =
      str "requests==2.31.0\nflask==3.0.0" ∧
    ¬ (apply_all_updates_requirements (str "requests>=2.25.0\nflask")
        [⟨str "requests", some (str "2.25.0"), str "2.31.0"⟩,
         ⟨str "flask", some (str "2.0.0"), str "3.0.0"⟩]).updated_content =
      str "requests>=2.31.0\nflask" := by
  decide

/-- C3, amended: the requirements.txt branch of `apply_all_updates` does
NOT preserve the leading range operator: every line passes through
unchanged, or — when its parsed name matches an update — is rewritten as
`name == latest_version` with the `==` operator regardless of the
original operator (so `>=` entries lose their operator and operator-free
entries gain `==`). -/
theorem c3_operator_replaced_by_eq (us : List ReqUpdate) (content : Str) :
    (apply_all_updates_requirements content us).updated_content =
      joinChar '\n' ((splitChar '\n' content).map (fun l => (applyReqLine us l).1)) ∧
    ∀ line, applyReqLine us line = (line, none) ∨
      ∃ n u, n = parseReqName (trimS line) ∧ n ≠ [] ∧ reqLookup us (lowerS n) = some u ∧
        applyReqLine us line =
          (n ++ '=' :: '=' :: u.latest, some ⟨n, u.current.getD (str "unknown"), u.latest⟩) :=
  ⟨apply_req_updated_content content us, fun line => applyReqLine_spec us line⟩

/-- C3, witness: the amended theorem applied to the single-line manifest
`"requests>=2.25.0"` and the `requests` update, exhibiting the line
rewritten with `==`. -/
theorem c3_operator_replaced_by_eq_witness :
    (apply_all_updates_requirements (str "requests>=2.25.0")
        [⟨str "requests", some (str "2.25.0"), str "2.31.0"⟩]).updated_content =
      joinChar '\n' ((splitChar '\n' (str "requests>=2.25.0")).map
        (fun l => (applyReqLine [⟨str "requests", some (str "2.25.0"), str "2.31.0"⟩] l).1)) ∧
    (applyReqLine [⟨str "requests", some (str "2.25.0"), str "2.31.0"⟩]
        (str "requests>=2.25.0") = (str "requests>=2.25.0", none) ∨
      ∃ n u, n = parseReqName (trimS (str "requests>=2.25.0")) ∧ n ≠ [] ∧
        reqLookup [⟨str "requests", some (str "2.25.0"), str "2.31.0"⟩] (lowerS n) = some u ∧
        applyReqLine [⟨str "requests", some (str "2.25.0"), str "2.31.0"⟩]
            (str "requests>=2.25.0") =
          (n ++ '=' :: '=' :: u.latest, some ⟨n, u.current.getD (str "unknown"), u.latest⟩)) :=
  ⟨(c3_operator_replaced_by_eq [⟨str "requests", some (str "2.25.0"), str "2.31.0"⟩]
      (str "requests>=2.25.0")).1,
   (c3_operator_replaced_by_eq [⟨str "requests", some (str "2.25.0"), str "2.31.0"⟩]
      (str "requests>=2.25.0")).2 (str "requests>=2.25.0")⟩

/-- C4, counterexample: re-applying the same single `requests` update to
the already-updated text `"requests==2.31.0"` matches and recounts the
entry, so the second call reports `total_updates = 1`, not 0. -/
theorem c4_counterexample :
    (apply_all_updates_requirements
        ((apply_all_updates_requirements (str "requests==2.25.0")
            [⟨str "requests", some (str "2.25.0"), str "2.31.0"⟩]).updated_content)
        [⟨str "requests", some (str "2.25.0"), str "2.31.0"⟩]).total_updates = 1 ∧
    ¬ (apply_all_updates_requirements
        ((apply_all_updates_requirements (str "requests==2.25.0")
            [⟨str "requests", some (str "2.25.0"), str "2.31.0"⟩]).updated_content)
        [⟨str "requests", some (str "2.25.0"), str "2.31.0"⟩]).total_updates = 0 := by
  decide

/-- C4, amended: for line-oriented manifests, when every update name is
free of `=` and `#` (lower-cased) and every latest version is
newline-free, a second `apply_all_updates` call on the already-updated
text returns an identical result — same text, same applied list and the
SAME total as the first call (every matching entry is re-applied and
recounted), not `total = 0`. -/
theorem c4_second_apply_same_result (content : Str) (us : List ReqUpdate)
    (H : ∀ u ∈ us, '=' ∉ lowerS u.name ∧ '#' ∉ lowerS u.name ∧ '\n' ∉ u.latest) :
    apply_all_updates_requirements
        ((apply_all_updates_requirements content us).updated_content) us =
      apply_all_updates_requirements content us ∧
    (apply_all_updates_requirements
        ((apply_all_updates_requirements content us).updated_content) us).total_updates =
      (apply_all_updates_requirements content us).total_updates := by
  have h := apply_req_idem content us H
  exact ⟨h, by rw [h]⟩

/-- C4, witness: the amended theorem applied to the two-line manifest
`"requests==2.25.0\nflask>=2.0.0"` and the single `requests` update. -/
theorem c4_second_apply_same_result_witness :
    apply_all_updates_requirements
        ((apply_all_updates_requirements (str "requests==2.25.0\nflask>=2.0.0")
            [⟨str "requests", some (str "2.25.0"), str "2.31.0"⟩]).updated_content)
        [⟨str "requests", some (str "2.25.0"), str "2.31.0"⟩] =
      apply_all_updates_requirements (str "requests==2.25.0\nflask>=2.0.0")
        [⟨str "requests", some (str "2.25.0"), str "2.31.0"⟩] ∧
    (apply_all_updates_requirements
        ((apply_all_updates_requirements (str "requests==2.25.0\nflask>=2.0.0")
            [⟨str "requests", some (str "2.25.0"), str "2.31.0"⟩]).updated_content)
        [⟨str "requests", some (str "2.25.0"), str "2.31.0"⟩]).total_updates =
      (apply_all_updates_requirements (str "requests==2.25.0\nflask>=2.0.0")
        [⟨str "requests", some (str "2.25.0"), str "2.31.0"⟩]).total_updates :=
  c4_second_apply_same_result _ _ (by decide)

/-- C5, counterexample: for the manifest `"requests>=2.25.0"`, applying
the `requests` update and then rolling `requests` back to its original
version 2.25.0 yields `"requests==2.25.0"`, which is NOT byte-identical
to the pre-update text: the `>=` operator is lost. -/
theorem c5_counterexample :
    rollback_major_update_requirements
        ((apply_all_updates_requirements (str "requests>=2.25.0")
            [⟨str "requests", some (str "2.25.0"), str "2.31.0"⟩]).updated_content)
        (str "requests") (str "2.25.0") = str "requests==2.25.0" ∧
    ¬ rollback_major_update_requirements
        ((apply_all_updates_requirements (str "requests>=2.25.0")
            [⟨str "requests", some (str "2.25.0"), str "2.31.0"⟩]).updated_content)
        (str "requests") (str "2.25.0") = str "requests>=2.25.0" := by
  decide

/-- C5, amended: for line-oriented manifests in which every line is blank
or a comment, or names a different package, or is written exactly
`name==original_version` for the updated package (operator `==`, no
whitespace or `=` inside the name), `apply_all_updates` followed by
`rollback_major_update` with the original version restores the whole text
byte-identically; entries carrying other operators (such as `>=`) are not
restored, since both apply and rollback rewrite them with `==`. -/
theorem c5_roundtrip_restores (u : ReqUpdate) (target content : Str)
    (hnl : '\n' ∉ u.latest)
    (H : ∀ line ∈ splitChar '\n' content, c5LineOk u target line) :
    rollback_major_update_requirements
      ((apply_all_updates_requirements content [u]).updated_content) u.name target = content :=
  roundtrip_req u target content hnl H

/-- C5, witness: the amended theorem applied to the manifest
`"# deps\nrequests==2.25.0\nflask==2.0.0"`, the `requests` update and
rollback target 2.25.0. -/
theorem c5_roundtrip_restores_witness :
    rollback_major_update_requirements
        ((apply_all_updates_requirements (str "# deps\nrequests==2.25.0\nflask==2.0.0")
            [⟨str "requests", some (str "2.25.0"), str "2.31.0"⟩]).updated_content)
        (str "requests") (str "2.25.0") =
      str "# deps\nrequests==2.25.0\nflask==2.0.0" :=
  c5_roundtrip_restores ⟨str "requests", some (str "2.25.0"), str "2.31.0"⟩
    (str "2.25.0") _ (by decide) (by decide)

/-- C1, counterexample: starting from a running session, a trace in which
the remote call faults twice and each reconnect succeeds performs TWO
retries of the same call (the Python retry is a recursive `call_tool`
invocation, and a successful `start` resets the attempt counter), so the
session does not perform exactly one retry before surfacing failure. -/
theorem c1_counterexample :
    (call_tool ⟨some (str "tok"), .running, true, [], none, none, 0, 0, 0⟩
        [⟨.success [] none, .fault (str "e1"), .success [] none⟩,
         ⟨.success [] none, .fault (str "e2"), .success [] none⟩,
         ⟨.success [] none, .ok (str "d"), .success [] none⟩]).map
      (fun x => x.2.2) = some 2 ∧
    ¬ (2 : Nat) ≤ 1 := by
  decide

/-- C1, amended: on a channel-level fault `call_tool` marks status
`error` and performs a reconnect followed by a retry of the same call; if
the reconnect fails the failure is surfaced at once with zero further
retries, but while each reconnect succeeds the retry repeats for every
new fault — the number of retries is bounded only by the length of the
execution trace (strictly fewer retries than rounds), not by one. -/
theorem c1_retry_behaviour :
    (∀ (st : MCPState) (rounds : List CallRound) (out : MCPState × CallResult × Nat),
      call_tool st rounds = some out → out.2.2 < rounds.length) ∧
    (∀ (st : MCPState) (r : CallRound) (rest : List CallRound) (msg : Str),
      r.callResult = .fault msg →
      (ensure_connected st r.ensureStart).2 = true →
      (reconnect { (ensure_connected st r.ensureStart).1 with
          status := .error, errorMessage := some msg } r.reconnectStart).2 = false →
      call_tool st (r :: rest) =
        some ((reconnect { (ensure_connected st r.ensureStart).1 with
            status := .error, errorMessage := some msg } r.reconnectStart).1,
          .error (str "MCP call failed: " ++ msg), 0)) :=
  ⟨fun st rounds out h => call_tool_retries_lt rounds st out h,
   fun st r rest msg hf hconn hrc => call_tool_fault_surfaces st r rest msg hf hconn hrc⟩

/-- C1, witness: the bound applied to a one-round successful trace (zero
retries, fewer than one round), and the fault-surfacing equation applied
to a running session whose reconnect budget is exhausted. -/
theorem c1_retry_behaviour_witness :
    (0 : Nat) < 1 ∧
    call_tool ⟨some (str "tok"), .running, true, [], none, none, 3, 0, 0⟩
        [⟨.success [] none, .fault (str "e"), .success [] none⟩] =
      some ((reconnect { (ensure_connected
            ⟨some (str "tok"), .running, true, [], none, none, 3, 0, 0⟩
            (StartOutcome.success [] none)).1 with
          status := .error, errorMessage := some (str "e") }
          (StartOutcome.success [] none)).1,
        .error (str "MCP call failed: " ++ str "e"), 0) :=
  ⟨c1_retry_behaviour.1 ⟨some (str "tok"), .running, true, [], none, none, 0, 0, 0⟩
      [⟨.success [] none, .ok (str "d"), .success [] none⟩]
      (⟨some (str "tok"), .running, true, [], none, none, 0, 0, 0⟩, .success (str "d"), 0)
      (by decide),
   c1_retry_behaviour.2 ⟨some (str "tok"), .running, true, [], none, none, 3, 0, 0⟩
      ⟨.success [] none, .fault (str "e"), .success [] none⟩ [] (str "e") rfl (by decide)
      (by decide)⟩

/-- C6, counterexample: with a metadata record whose snapshot was cached
at time 0 (ttl 1 hour), caching an analysis at time 120 stores the value
with its own `analysis_cached_at = 120` in the same record, but a read at
time 130 returns `none` even though 130 < 120 + 60: validity is governed
by the record-level `cached_at`, not by the field's own timestamp as the
claim states. -/
theorem c6_counterexample :
    cache_analysis (some (.json ⟨.iso 0, none, none, none, none⟩)) 7 120 =
      .ok ⟨.iso 0, some 7, some 120, none, none⟩ ∧
    get_cached_analysis 1 130 (some (.json ⟨.iso 0, some 7, some 120, none, none⟩)) =
      .ok none ∧
    130 < 120 + minutesPerHour * 1 :=
  ⟨rfl, rfl, by decide⟩

/-- C6, amended: for each of the fields `analysis` and
`outdated_packages`, the value is merged into the same metadata record as
the snapshot together with its own per-field `cached_at` timestamp, but
the validity of a read of that field is governed solely by the
record-level snapshot `cached_at` and the process-wide ttl — the
per-field timestamp is stored and never consulted. -/
theorem c6_field_cache_validity (m : CacheMetadata) (t data now readNow h : Nat)
    (hca : m.cached_at = .iso t) :
    cache_analysis (some (.json m)) data now =
      .ok { m with analysis := some data, analysis_cached_at := some now } ∧
    get_cached_analysis h readNow
        (some (.json { m with analysis := some data, analysis_cached_at := some now })) =
      .ok (if readNow < t + minutesPerHour * h then some data else none) ∧
    cache_outdated (some (.json m)) data now =
      .ok { m with outdated_packages := some data, outdated_cached_at := some now } ∧
    get_cached_outdated h readNow
        (some (.json { m with outdated_packages := some data, outdated_cached_at := some now })) =
      .ok (if readNow < t + minutesPerHour * h then some data else none) := by
  refine ⟨rfl, ?_, rfl, ?_⟩
  · simp only [get_cached_analysis, is_cache_valid, hca]
    by_cases hv : readNow < t + minutesPerHour * h
    · simp [hv]
    · simp [hv]
  · simp only [get_cached_outdated, is_cache_valid, hca]
    by_cases hv : readNow < t + minutesPerHour * h
    · simp [hv]
    · simp [hv]

/-- C6, witness: the amended theorem applied to a record cached at time
0, a write at time 120, reads at time 130, ttl 1 hour. -/
theorem c6_field_cache_validity_witness :
    cache_analysis (some (.json ⟨.iso 0, none, none, none, none⟩)) 7 120 =
      .ok ⟨.iso 0, some 7, some 120, none, none⟩ ∧
    get_cached_analysis 1 130 (some (.json ⟨.iso 0, some 7, some 120, none, none⟩)) =
      .ok (if 130 < 0 + minutesPerHour * 1 then some 7 else none) ∧
    cache_outdated (some (.json ⟨.iso 0, none, none, none, none⟩)) 7 120 =
      .ok ⟨.iso 0, none, none, some 7, some 120⟩ ∧
    get_cached_outdated 1 130 (some (.json ⟨.iso 0, none, none, some 7, some 120⟩)) =
      .ok (if 130 < 0 + minutesPerHour * 1 then some 7 else none) :=
  c6_field_cache_validity ⟨.iso 0, none, none, none, none⟩ 0 7 120 130 1 rfl

/-- C7: after three consecutive failed `reconnect()` calls starting from
a zero attempt counter, the session is in status `error` with the counter
at the maximum, and a fourth `reconnect()` call — whatever outcome its
`start` would have had — returns false without re-running `start()` (the
ghost `startCalls` counter does not move); the counter is reset to zero
only by a fresh successful `start()`. -/
theorem c7_reconnect_terminal (st : MCPState) (m1 m2 m3 : Str) (o4 : StartOutcome)
    (h0 : st.reconnectAttempts = 0) :
    ((reconnect st (.failure m1)).2 = false ∧
     (reconnect (reconnect st (.failure m1)).1 (.failure m2)).2 = false ∧
     (reconnect (reconnect (reconnect st (.failure m1)).1 (.failure m2)).1 (.failure m3)).2 =
       false ∧
     (reconnect (reconnect (reconnect st (.failure m1)).1 (.failure m2)).1
         (.failure m3)).1.status = .error ∧
     (reconnect (reconnect (reconnect st (.failure m1)).1 (.failure m2)).1
         (.failure m3)).1.reconnectAttempts = 3 ∧
     (reconnect (reconnect (reconnect (reconnect st (.failure m1)).1 (.failure m2)).1
         (.failure m3)).1 o4).2 = false ∧
     (reconnect (reconnect (reconnect (reconnect st (.failure m1)).1 (.failure m2)).1
         (.failure m3)).1 o4).1.status = .error ∧
     (reconnect (reconnect (reconnect (reconnect st (.failure m1)).1 (.failure m2)).1
         (.failure m3)).1 o4).1.startCalls =
       (reconnect (reconnect (reconnect st (.failure m1)).1 (.failure m2)).1
         (.failure m3)).1.startCalls) ∧
    (∀ (s : MCPState) (tok : Str) (tools : List Str) (cid : Option Str),
      s.githubToken = some tok →
      (start s (.success tools cid)).2 = true ∧
      (start s (.success tools cid)).1.reconnectAttempts = 0) := by
  constructor
  · cases htok : st.githubToken with
    | none =>
      simp [reconnect, start, mcpCleanup, maxReconnectAttempts, h0, htok]
    | some tok =>
      simp [reconnect, start, mcpCleanup, maxReconnectAttempts, h0, htok]
  · intro s tok tools cid hs
    constructor
    · simp [start, hs]
    · simp [start, hs]

/-- C7, witness: the theorem applied to a concrete error-state session
with a configured token and attempt counter zero, with a success outcome
offered to the fourth call. -/
theorem c7_reconnect_terminal_witness :
    (⟨some (str "tok"), .error, false, [], none, none, 0, 0, 0⟩ :
      MCPState).reconnectAttempts = 0 ∧
    (reconnect (reconnect (reconnect (reconnect
        ⟨some (str "tok"), .error, false, [], none, none, 0, 0, 0⟩
        (.failure (str "e1"))).1 (.failure (str "e2"))).1 (.failure (str "e3"))).1
      (.success [] none)).2 = false :=
  ⟨rfl, ((c7_reconnect_terminal ⟨some (str "tok"), .error, false, [], none, none, 0, 0, 0⟩
      (str "e1") (str "e2") (str "e3") (.success [] none) rfl).1.2.2.2.2.2).1⟩

/-- C8: when the credential/token is not configured, `start()` moves the
session directly to status `error` with the descriptive message, returns
false, and neither spawns a child process (ghost `spawnCount` unchanged)
nor opens a channel (`sessionOpen` unchanged). -/
theorem c8_start_without_token (st : MCPState) (o : StartOutcome)
    (h : st.githubToken = none) :
    (start st o).2 = false ∧
    (start st o).1.status = .error ∧
    (start st o).1.errorMessage = some (str "GITHUB_PERSONAL_ACCESS_TOKEN not set") ∧
    (start st o).1.spawnCount = st.spawnCount ∧
    (start st o).1.sessionOpen = st.sessionOpen := by
  simp [start, h]

/-- C8, witness: the theorem applied to a stopped session with no token
configured. -/
theorem c8_start_without_token_witness :
    (start ⟨none, .stopped, false, [], none, none, 0, 0, 0⟩ (.success [str "t"] none)).2 =
      false ∧
    (start ⟨none, .stopped, false, [], none, none, 0, 0, 0⟩
      (.success [str "t"] none)).1.status = .error ∧
    (start ⟨none, .stopped, false, [], none, none, 0, 0, 0⟩
        (.success [str "t"] none)).1.errorMessage =
      some (str "GITHUB_PERSONAL_ACCESS_TOKEN not set") ∧
    (start ⟨none, .stopped, false, [], none, none, 0, 0, 0⟩
        (.success [str "t"] none)).1.spawnCount =
      (⟨none, .stopped, false, [], none, none, 0, 0, 0⟩ : MCPState).spawnCount ∧
    (start ⟨none, .stopped, false, [], none, none, 0, 0, 0⟩
        (.success [str "t"] none)).1.sessionOpen =
      (⟨none, .stopped, false, [], none, none, 0, 0, 0⟩ : MCPState).sessionOpen :=
  c8_start_without_token ⟨none, .stopped, false, [], none, none, 0, 0, 0⟩
    (.success [str "t"] none) rfl

/-- C9: an entry written with ttl = 1 hour and a snapshot present on disk
is returned by `get_cached_repository` when read at `cached_at` + 59
minutes and reported absent when read at `cached_at` + 61 minutes. -/
theorem c9_ttl_boundary (t : Nat) (an aca od oca : Option Nat) :
    get_cached_repository 1 (t + 59) (some (.json ⟨.iso t, an, aca, od, oca⟩)) true =
      .ok true ∧
    get_cached_repository 1 (t + 61) (some (.json ⟨.iso t, an, aca, od, oca⟩)) true =
      .ok false := by
  constructor
  · have hv : is_cache_valid 1 (t + 59) (some (.json ⟨.iso t, an, aca, od, oca⟩)) =
        .ok true := by
      simp only [is_cache_valid, minutesPerHour]
      have hlt : t + 59 < t + 60 * 1 := by omega
      simp [hlt]
    simp [get_cached_repository, hv]
  · have hv : is_cache_valid 1 (t + 61) (some (.json ⟨.iso t, an, aca, od, oca⟩)) =
        .ok false := by
      simp only [is_cache_valid, minutesPerHour]
      have hlt : ¬ t + 61 < t + 60 * 1 := by omega
      simp [hlt]
    simp [get_cached_repository, hv]

/-- C9, witness: the boundary theorem applied at `cached_at = 0` with an
otherwise empty record. -/
theorem c9_ttl_boundary_witness :
    get_cached_repository 1 (0 + 59) (some (.json ⟨.iso 0, none, none, none, none⟩)) true =
      .ok true ∧
    get_cached_repository 1 (0 + 61) (some (.json ⟨.iso 0, none, none, none, none⟩)) true =
      .ok false :=
  c9_ttl_boundary 0 none none none none

/-- C10: a metadata file that is valid JSON but lacks the `cached_at` key
makes `_is_cache_valid` raise an uncaught `TypeError` (from
`datetime.fromisoformat(None)`, not the caught `KeyError`), which
propagates out of `get_cached_repository` and aborts `cleanup_expired`,
instead of the entry being treated as invalid and swept as the claim
(and the code's own `except` clause) intends; corrupt JSON and a
malformed `cached_at` string ARE treated as invalid and counted by the
sweep. -/
theorem c10_missing_cached_at_raises :
    is_cache_valid 1 0 (some (.json ⟨.missing, none, none, none, none⟩)) =
      .error .typeError ∧
    get_cached_repository 1 0 (some (.json ⟨.missing, none, none, none, none⟩)) true =
      .error .typeError ∧
    cleanup_expired 1 0 [(.json ⟨.missing, none, none, none, none⟩, false)] =
      .error .typeError ∧
    is_cache_valid 1 0 (some .notJson) = .ok false ∧
    cleanup_expired 1 100
        [(.notJson, true), (.json ⟨.malformed, none, none, none, none⟩, false)] = .ok 2 :=
  ⟨rfl, rfl, rfl, rfl, rfl⟩

end DepUpdater
